import Mathlib

/-!
Verification of the `process-email` Lambda of techpool/furt-money-email-parsing.

Part 1 embeds the only TypeScript source file,
`src/lambda/process-email/src/index.ts`, as executable Lean definitions:
the module-level configuration check, the `handler`, and `consumeBody`.
Errors thrown by the JavaScript runtime are modelled as `Except Err`;
the opaque identity of a thrown error value is modelled by `Err := String`.

Part 2 models, faithfully to the words of the specification, the core pipeline
(address flattening, canonical sender resolution, body truncation, snippet
extraction, delivery) that the specification describes but that is not
present under `src/`; each such definition carries a doc comment starting
with `Modelled from the spec:`.
-/

/-- Opaque runtime error values (the identity of an error, for re-raise tracking). -/
abbrev Err := String

deriving instance DecidableEq for Except

/-! ## Part 1: embedding of src/lambda/process-email/src/index.ts -/

/-- The `record.mail` member of an SES record: `messageId`, `source`, `destination`. -/
structure SESMail where
  messageId : String
  source : String
  destination : List String
deriving DecidableEq

/-- The `ses` member of one event record, wrapping `mail`. -/
structure SESMessage where
  mail : SESMail
deriving DecidableEq

/-- One entry of `event.Records`; `ses` is `Option` because the code guards
`event.Records?.[0]?.ses` defensively against a missing member. -/
structure SESRecord where
  ses : Option SESMessage
deriving DecidableEq

/-- The trigger event: `event.Records` (an absent array behaves as `[]`). -/
structure SESEvent where
  records : List SESRecord
deriving DecidableEq

/-- Embeds `event.Records?.[0]?.ses` from index.ts line 15. -/
def eventRecord (event : SESEvent) : Option SESMessage :=
  event.records.head?.bind (fun r => r.ses)

/-- The `Body` of a `GetObjectCommandOutput`, by the shapes `consumeBody`
dispatches on: absent (`!body`), an object offering `transformToByteArray`
(whose awaited call may reject), a `Readable` stream (iteration yields byte
chunks and may throw mid-stream), or any other buffer-convertible value.
Chunks and byte arrays are byte lists; only their lengths matter. -/
inductive S3Body where
  | undef : S3Body
  | byteArrayCapable : Except Err (List Nat) → S3Body
  | readable : List (Except Err (List Nat)) → S3Body
  | other : List Nat → S3Body
deriving DecidableEq

/-- A `GetObjectCommandOutput`: optional `ContentLength` plus `Body`. -/
structure S3Response where
  contentLength : Option Nat
  body : S3Body
deriving DecidableEq

/-- Embeds the stream loop `for await (const chunk of body) size += Buffer.byteLength(chunk)`:
sums chunk byte lengths in order, raising the stream error when hit. -/
def sumChunks : List (Except Err (List Nat)) → Except Err Nat
  | [] => Except.ok 0
  | Except.error e :: _ => Except.error e
  | Except.ok c :: rest =>
    match sumChunks rest with
    | Except.ok n => Except.ok (c.length + n)
    | Except.error e => Except.error e

/-- Embeds `consumeBody` from index.ts lines 60-80. -/
def consumeBody : S3Body → Except Err Nat
  | S3Body.undef => Except.ok 0
  | S3Body.byteArrayCapable res => res.map List.length
  | S3Body.readable chunks => sumChunks chunks
  | S3Body.other raw => Except.ok raw.length

/-- Embeds `response.ContentLength ?? (await consumeBody(response.Body))`
from index.ts line 32. -/
def responseSize (r : S3Response) : Except Err Nat :=
  match r.contentLength with
  | some n => Except.ok n
  | none => consumeBody r.body

/-- A log line the handler can emit: the `console.warn` for a missing
record, the structured `console.log` success line (message id, object key,
size, recipients, source), or the `console.error` failure line (message id,
bucket, object key, error). -/
inductive LogLine where
  | warn : String → LogLine
  | info : String → String → Nat → List String → String → LogLine
  | errorLog : String → String → String → Err → LogLine
deriving DecidableEq

/-- Observable outcome of one handler invocation: the log lines emitted,
the S3 GET requests issued as (bucket, key) pairs, and the promise result
(`Except.error e` models the invocation rejecting with `e`). -/
structure HandlerOutcome where
  logs : List LogLine
  fetches : List (String × String)
  result : Except Err Unit
deriving DecidableEq

/-- Embeds the default applied to the key prefix setting at index.ts line 8
(absent falls back to raw/). -/
def keyPrefixOf (p : Option String) : String := p.getD "raw/"

/-- The module-level `EMAIL_BUCKET` check of index.ts lines 7-12:
`if (!EMAIL_BUCKET) throw new Error(...)`. A missing variable and an empty
string are both falsy, so both abort before any invocation can run. -/
def checkEmailBucket (b : Option String) : Except Err String :=
  match b with
  | none => Except.error "EMAIL_BUCKET environment variable must be set"
  | some s =>
    if s = "" then Except.error "EMAIL_BUCKET environment variable must be set"
    else Except.ok s

/-- Embeds `handler` from index.ts lines 14-58, over a resolved bucket and key
prefix and an S3 oracle `s3 bucket key` giving the outcome of
`s3.send(new GetObjectCommand(...))`. The `try` block covers the GET, the
body consumption and the success log; the `catch` logs with context and
re-throws the caught error unchanged. -/
def handler (bucket pfx : String) (s3 : String → String → Except Err S3Response)
    (event : SESEvent) : HandlerOutcome :=
  match eventRecord event with
  | none =>
    { logs := [LogLine.warn "process-email: No SES record found in event payload"]
      fetches := []
      result := Except.ok () }
  | some record =>
    let messageId := record.mail.messageId
    let objectKey := pfx ++ messageId
    match s3 bucket objectKey with
    | Except.error e =>
      { logs := [LogLine.errorLog messageId bucket objectKey e]
        fetches := [(bucket, objectKey)]
        result := Except.error e }
    | Except.ok response =>
      match responseSize response with
      | Except.error e =>
        { logs := [LogLine.errorLog messageId bucket objectKey e]
          fetches := [(bucket, objectKey)]
          result := Except.error e }
      | Except.ok size =>
        { logs := [LogLine.info messageId objectKey size
                    record.mail.destination record.mail.source]
          fetches := [(bucket, objectKey)]
          result := Except.ok () }

/-! ## Part 2: the core pipeline, modelled from the spec

The address resolver, payload normalizer and delivery sink that the spec
describes as the core of this system do not appear under `src/`; only the
S3-fetching handler does. The definitions below are therefore modelled
from the words of the spec (sections 4.1-4.4, 6 and 7). -/

/-- Character-wise lower-casing (JavaScript `toLowerCase`). -/
def lowerStr (s : String) : String := String.mk (s.data.map Char.toLower)

/-- Leading- and trailing-whitespace removal (JavaScript `trim`). -/
def trimStr (s : String) : String :=
  String.mk (((s.data.dropWhile Char.isWhitespace).reverse.dropWhile
    Char.isWhitespace).reverse)

/-- The first `n` characters of a string (JavaScript `slice(0, n)`). -/
def takeStr (s : String) (n : Nat) : String := String.mk (s.data.take n)

/-- The output of the resolver: `address` lower-cased and trimmed, `name`
trimmed with empty treated as absent. -/
structure CanonicalAddress where
  address : String
  name : Option String
deriving DecidableEq

/-- Modelled from the spec (4.1): the `AddressInput` variants — absent, a
free-form header string, a structured address with `.address`/`.name`, an
array of inputs (flattened element-by-element), and a group whose `.value`
array is recursively flattened. An array of plain strings or of structured
addresses is an `arr` of `text`/`structured` elements. -/
inductive AddressInput where
  | absent : AddressInput
  | text : String → AddressInput
  | structured : String → String → AddressInput
  | arr : List AddressInput → AddressInput
  | group : List AddressInput → AddressInput

/-- Local-part characters: ASCII letters/digits and `.` `_` `%` `+` `-`. -/
def isLocalChar (c : Char) : Bool :=
  c.isAlphanum || c == '.' || c == '_' || c == '%' || c == '+' || c == '-'

/-- Domain characters: ASCII letters/digits and `.` `-`. -/
def isDomainChar (c : Char) : Bool :=
  c.isAlphanum || c == '.' || c == '-'

/-- Modelled from the spec (4.1): within a maximal run of domain
characters, the matched domain is determined by the latest dot that is
preceded by at least one character and followed by a run of at least two
ASCII letters (the TLD); the match extends through that letter run.
Returns the length of the matched domain prefix of `run`, if any. -/
def domainMatchLen (run : List Char) : Option Nat :=
  ((List.range run.length).reverse.filterMap (fun k =>
    if 1 ≤ k ∧ run.getD k ' ' = '.' then
      let alen := ((run.drop (k+1)).takeWhile Char.isAlpha).length
      if 2 ≤ alen then some (k + 1 + alen) else none
    else none)).head?

/-- Modelled from the spec (4.1): attempt an address-token match at the
head of the input: a non-empty run of local-part characters, an at-sign,
then a matched domain within the following domain-character run. Returns
the total matched length. -/
def tryMatchLen (cs : List Char) : Option Nat :=
  let loc := cs.takeWhile isLocalChar
  if loc.length = 0 then none
  else
    match cs.drop loc.length with
    | '@' :: rest =>
      match domainMatchLen (rest.takeWhile isDomainChar) with
      | some dlen => some (loc.length + 1 + dlen)
      | none => none
    | _ => none

/-- Modelled from the spec (4.1): scan left to right, emitting each matched
token and resuming after it, else advancing one character; the fuel (the
input length) bounds the recursion. -/
def scanAux : Nat → List Char → List String
  | 0, _ => []
  | fuel+1, cs =>
    match cs with
    | [] => []
    | c :: rest =>
      match tryMatchLen (c :: rest) with
      | some n => String.mk ((c :: rest).take n) :: scanAux fuel ((c :: rest).drop n)
      | none => scanAux fuel rest

/-- All address tokens of a free-form string, in scan order. -/
def scanEmails (s : String) : List String := scanAux s.length s.data

/-- A display name, trimmed; empty-after-trim is treated as absent. -/
def canonName (n : String) : Option String :=
  if trimStr n = "" then none else some (trimStr n)

mutual

/-- Modelled from the spec (4.1): flattening an `AddressInput` into an
ordered list of `CanonicalAddress` — arrays and groups are recursively
flattened in order; a structured address is lower-cased/trimmed (an empty
address yields nothing, keeping every output address non-empty); a string
is scanned for tokens, with the whole trimmed string used verbatim as one
address when no token matches but the string contains an at-sign, and no
addresses at all when it has no at-sign. Duplicates are kept. -/
def flattenInput : AddressInput → List CanonicalAddress
  | AddressInput.absent => []
  | AddressInput.text s =>
    match scanEmails s with
    | [] => if s.data.contains '@' then [⟨lowerStr (trimStr s), none⟩] else []
    | toks => toks.map (fun t => ⟨lowerStr t, none⟩)
  | AddressInput.structured a n =>
    if trimStr a = "" then [] else [⟨lowerStr (trimStr a), canonName n⟩]
  | AddressInput.arr items => flattenList items
  | AddressInput.group value => flattenList value

def flattenList : List AddressInput → List CanonicalAddress
  | [] => []
  | x :: xs => flattenInput x ++ flattenList xs

end

/-- Modelled from the spec (4.2): the fixed, ordered list of
original-sender header names. -/
def ORIGINAL_SENDER_HEADERS : List String :=
  ["x-original-from", "x-original-sender", "x-google-original-from",
   "x-forwarded-for", "original-from", "resent-from", "reply-to"]

/-- Modelled from the spec (3): the parsed message — headers as a mapping
from lower-cased name to raw value (first binding wins on lookup), the
address-bearing fields, and subject/text/html bodies. -/
structure ParsedMessage where
  headers : List (String × String)
  fromAddrs : AddressInput
  toAddrs : AddressInput
  ccAddrs : AddressInput
  replyTo : AddressInput
  subject : Option String
  text : Option String
  html : Option String

/-- Modelled from the spec (3): the relay envelope metadata. -/
structure EnvelopeMetadata where
  messageId : String
  timestampIso : String
  sourceAddress : Option String
  destinationAddresses : List String
  commonHeadersSubject : Option String
  commonHeadersFrom : Option (List AddressInput)

/-- Header lookup by (lower-cased) name; first binding wins. -/
def headerLookup (headers : List (String × String)) (name : String) :
    Option String :=
  (headers.find? (fun p => p.fst = name)).map Prod.snd

/-- Modelled from the spec (4.2 step 1): the addresses one original-sender
header name contributes — nothing when the header is absent or its value is
empty, else the flattening of its raw string value. -/
def headerSource (msg : ParsedMessage) (name : String) :
    List CanonicalAddress :=
  match headerLookup msg.headers name with
  | none => []
  | some v => if v = "" then [] else flattenInput (AddressInput.text v)

/-- Modelled from the spec (4.2 step 1): the first address contributed by
the ordered original-sender header scan, if any. -/
def resolveOriginalHeaders (msg : ParsedMessage) : Option CanonicalAddress :=
  ORIGINAL_SENDER_HEADERS.findSome? (fun h => (headerSource msg h).head?)

/-- Modelled from the spec (4.2 step 5): the relay source address,
lower-cased; the literal placeholder when absent or empty. -/
def relayFallback (env : EnvelopeMetadata) : CanonicalAddress :=
  match env.sourceAddress with
  | none => ⟨"unknown@sender", none⟩
  | some s => if s = "" then ⟨"unknown@sender", none⟩ else ⟨lowerStr s, none⟩

/-- Modelled from the spec (4.2): the priority cascade — original-sender
headers, then parsed From, then Reply-To, then the envelope
commonHeadersFrom entries in order, then the relay source fallback; each
step short-circuits at the first source yielding an address. -/
def resolveSender (msg : ParsedMessage) (env : EnvelopeMetadata) :
    CanonicalAddress :=
  match resolveOriginalHeaders msg with
  | some a => a
  | none =>
    match (flattenInput msg.fromAddrs).head? with
    | some a => a
    | none =>
      match (flattenInput msg.replyTo).head? with
      | some a => a
      | none =>
        match (env.commonHeadersFrom.getD []).findSome?
            (fun e => (flattenInput e).head?) with
        | some a => a
        | none => relayFallback env

/-- The reading the claim gives of the cascade: the ordered list of candidate
address sources (one list per original-sender header, then From, then
Reply-To, then one list per commonHeadersFrom entry). -/
def senderSources (msg : ParsedMessage) (env : EnvelopeMetadata) :
    List (List CanonicalAddress) :=
  ORIGINAL_SENDER_HEADERS.map (headerSource msg)
    ++ [flattenInput msg.fromAddrs, flattenInput msg.replyTo]
    ++ (env.commonHeadersFrom.getD []).map flattenInput

/-- Modelled from the spec (4.3, 6): the default body character limit. -/
def MAX_BODY_CHARS_DEFAULT : Nat := 20000

/-- Modelled from the spec (4.3, 6): the configured limit; a positive
numeric configuration value overrides it, and a non-positive or
non-numeric (`none`) value silently falls back to the default. -/
def resolveMaxBodyChars (cfg : Option Int) : Nat :=
  match cfg with
  | some n => if 0 < n then n.toNat else MAX_BODY_CHARS_DEFAULT
  | none => MAX_BODY_CHARS_DEFAULT

/-- Modelled from the spec (4.3): a body longer than the limit is cut to
exactly the first `maxChars` characters (no ellipsis, no word-boundary
awareness); absent or empty content maps to `none`, never to `some ""`. -/
def normalizeBody (maxChars : Nat) (body : Option String) : Option String :=
  match body with
  | none => none
  | some s => if s = "" then none else some (takeStr s maxChars)

/-- Modelled from the spec (4.3): replace each `<...>` tag — from a `<` to
the first following `>` — by one single space; a `<` never followed by a
`>` is left as-is, as is everything outside tags (no entity decoding, no
further whitespace collapsing). Fuel bounds the recursion. -/
def stripTagsAux : Nat → List Char → List Char
  | 0, cs => cs
  | fuel+1, cs =>
    match cs with
    | [] => []
    | c :: rest =>
      if c = '<' then
        if rest.contains '>' then
          ' ' :: stripTagsAux fuel ((rest.dropWhile (fun d => d != '>')).tail)
        else c :: rest
      else c :: stripTagsAux fuel rest

/-- Tag replacement on strings. -/
def stripTags (s : String) : String := String.mk (stripTagsAux s.length s.data)

/-- Modelled from the spec (4.3): the snippet — the plain-text body when it
has non-whitespace content, else the tag-stripped HTML body when that has
non-whitespace content; the chosen candidate is trimmed then truncated to
at most 500 characters; `none` when neither candidate has content. -/
def makeSnippet (text html : Option String) : Option String :=
  let t := trimStr (text.getD "")
  if t ≠ "" then some (takeStr t 500)
  else
    let h := trimStr (stripTags (html.getD ""))
    if h ≠ "" then some (takeStr h 500) else none

/-- Modelled from the spec (4.4): the HTTP response of the ingestion endpoint. -/
structure HttpResponse where
  status : Nat
  body : String
deriving DecidableEq

/-- Modelled from the spec (4.4): a delivery error carries the response
status and the first 500 characters of the response body. -/
structure DeliveryError where
  status : Nat
  bodyCapture : String
deriving DecidableEq

/-- Modelled from the spec (4.4): delivering the assembled record — any
response status outside the 2xx range is a hard failure whose error is
returned to (and so propagated by) the caller; there is no local retry. -/
def deliverRecord (resp : HttpResponse) : Except DeliveryError Unit :=
  if 200 ≤ resp.status ∧ resp.status < 300 then Except.ok ()
  else Except.error ⟨resp.status, takeStr resp.body 500⟩

/-- Modelled from the spec (6, 7): the required configuration settings.
The ingestion endpoint URL and auth token are read only by the delivery
code, which is absent from `src/`, so their startup check is modelled from
the spec; the bucket check also exists in the source (`checkEmailBucket`). -/
structure SpecConfig where
  bucketName : Option String
  ingestEndpointUrl : Option String
  ingestAuthToken : Option String

/-- Modelled from the spec (7): a missing required setting is fatal at
startup; the invocation never proceeds. -/
def specStartupCheck (c : SpecConfig) : Except Err Unit :=
  match c.bucketName with
  | none => Except.error "missing object-store bucket name"
  | some _ =>
    match c.ingestEndpointUrl with
    | none => Except.error "missing ingestion endpoint URL"
    | some _ =>
      match c.ingestAuthToken with
      | none => Except.error "missing ingestion auth token"
      | some _ => Except.ok ()

/-! ## Shared helper lemmas and definitions for the theorems -/

/-- Whether an `Except` value is an error. -/
def exceptIsError {ε α : Type} : Except ε α → Bool
  | Except.error _ => true
  | Except.ok _ => false

/-- Summing fully successful stream chunks gives the sum of their lengths. -/
theorem sumChunks_map_ok (chunks : List (List Nat)) :
    sumChunks (chunks.map Except.ok) = Except.ok (chunks.map List.length).sum := by
  induction chunks with
  | nil => rfl
  | cons c cs ih => simp [sumChunks, ih, List.map_cons, List.sum_cons]

/-! ## Claims -/

/-- C1: canonical sender resolution returns the first address of the first
source in the fixed priority cascade that yields at least one address —
the ordered original-sender headers, then From, then Reply-To, then the
envelope commonHeadersFrom entries — falling back to the lower-cased relay
source and, when that is absent or empty, to the placeholder
unknown@sender; in particular x-original-sender real@author.com wins over
From relay@forwarder.com. -/
theorem sender_cascade_first_source :
    (∀ (msg : ParsedMessage) (env : EnvelopeMetadata),
      resolveSender msg env =
        (List.findSome? List.head? (senderSources msg env)).getD
          (relayFallback env)) ∧
    resolveSender
      { headers := [("from", "relay@forwarder.com"),
                    ("x-original-sender", "real@author.com")]
        fromAddrs := AddressInput.text "relay@forwarder.com"
        toAddrs := AddressInput.absent
        ccAddrs := AddressInput.absent
        replyTo := AddressInput.absent
        subject := none, text := none, html := none }
      { messageId := "m1", timestampIso := "2024-01-01T00:00:00Z"
        sourceAddress := some "relay@mx.example.com"
        destinationAddresses := ["inbox@furt.money"]
        commonHeadersSubject := none, commonHeadersFrom := none }
      = { address := "real@author.com", name := none } ∧
    resolveSender
      { headers := []
        fromAddrs := AddressInput.absent
        toAddrs := AddressInput.absent
        ccAddrs := AddressInput.absent
        replyTo := AddressInput.absent
        subject := none, text := none, html := none }
      { messageId := "m2", timestampIso := "2024-01-01T00:00:00Z"
        sourceAddress := none
        destinationAddresses := []
        commonHeadersSubject := none, commonHeadersFrom := none }
      = { address := "unknown@sender", name := none } := by
  refine ⟨?_, by decide, by decide⟩
  intro msg env
  have hmap1 : List.findSome? List.head?
      (List.map (headerSource msg) ORIGINAL_SENDER_HEADERS) =
      resolveOriginalHeaders msg := by
    rw [List.findSome?_map]; rfl
  have hmap2 : List.findSome? List.head?
      (List.map flattenInput (env.commonHeadersFrom.getD [])) =
      List.findSome? (fun e => (flattenInput e).head?)
        (env.commonHeadersFrom.getD []) := by
    rw [List.findSome?_map]; rfl
  simp only [senderSources, List.findSome?_append, hmap1, hmap2,
    List.findSome?_cons]
  unfold resolveSender
  cases resolveOriginalHeaders msg with
  | some a => simp
  | none =>
    cases (flattenInput msg.fromAddrs).head? with
    | some a => simp
    | none =>
      cases (flattenInput msg.replyTo).head? with
      | some a => simp
      | none =>
        cases List.findSome? (fun e => (flattenInput e).head?)
            (env.commonHeadersFrom.getD []) with
        | some a => simp
        | none => simp

/-- C2: a body longer than the limit is cut to exactly its first
`maxChars` characters, with nothing appended; absent or empty bodies map
to `none`; the default limit is 20000 and non-positive or non-numeric
configuration values fall back to it. -/
theorem body_truncation_exact :
    (∀ (m : Nat) (s : String), m < s.length →
      normalizeBody m (some s) = some (takeStr s m) ∧
      (takeStr s m).data = s.data.take m ∧
      (takeStr s m).length = m) ∧
    (∀ m, normalizeBody m none = none) ∧
    (∀ m, normalizeBody m (some "") = none) ∧
    resolveMaxBodyChars none = 20000 ∧
    (∀ n : Int, 0 < n → resolveMaxBodyChars (some n) = n.toNat) ∧
    (∀ n : Int, n ≤ 0 → resolveMaxBodyChars (some n) = 20000) := by
  refine ⟨?_, fun m => rfl, fun m => rfl, rfl, ?_, ?_⟩
  · intro m s hm
    have hne : s ≠ "" := by
      intro h
      subst h
      exact Nat.not_lt_zero m hm
    refine ⟨by simp [normalizeBody, hne], rfl, ?_⟩
    show (s.data.take m).length = m
    rw [List.length_take]
    exact Nat.min_eq_left (Nat.le_of_lt hm)
  · intro n hn
    simp only [resolveMaxBodyChars]
    rw [if_pos hn]
  · intro n hn
    simp only [resolveMaxBodyChars]
    rw [if_neg (by omega)]
    rfl

/-- C2 witness at a concrete truncation. -/
theorem body_truncation_exact_witness :
    normalizeBody 5 (some "abcdefgh") = some "abcde" := by
  have h := (body_truncation_exact.1 5 "abcdefgh" (by decide)).1
  have e : takeStr "abcdefgh" 5 = "abcde" := by decide
  rw [e] at h
  exact h

/-- C3: the snippet is the plain-text body when it has non-whitespace
content, else the HTML body with each tag replaced by a single space; the
chosen candidate is trimmed and cut to at most 500 characters, and with
neither candidate the snippet is null. -/
theorem snippet_derivation :
    (∀ tb hb : Option String,
      (trimStr (tb.getD "") ≠ "" →
        makeSnippet tb hb = some (takeStr (trimStr (tb.getD "")) 500)) ∧
      (trimStr (tb.getD "") = "" → trimStr (stripTags (hb.getD "")) ≠ "" →
        makeSnippet tb hb =
          some (takeStr (trimStr (stripTags (hb.getD ""))) 500)) ∧
      (trimStr (tb.getD "") = "" → trimStr (stripTags (hb.getD "")) = "" →
        makeSnippet tb hb = none) ∧
      (∀ s, makeSnippet tb hb = some s → s.length ≤ 500)) ∧
    makeSnippet none (some "<p>Hello <b>world</b></p>") =
      some "Hello  world" := by
  refine ⟨fun tb hb => ⟨?_, ?_, ?_, ?_⟩, by decide⟩
  · intro h1
    simp [makeSnippet, h1]
  · intro h1 h2
    simp [makeSnippet, h1, h2]
  · intro h1 h2
    simp [makeSnippet, h1, h2]
  · intro s hs
    simp only [makeSnippet] at hs
    split_ifs at hs with h1 h2
    · cases hs
      show (List.take 500 _).length ≤ 500
      rw [List.length_take]
      exact Nat.min_le_left _ _
    · cases hs
      show (List.take 500 _).length ≤ 500
      rw [List.length_take]
      exact Nat.min_le_left _ _

/-- C3 witness at concrete bodies. -/
theorem snippet_derivation_witness :
    makeSnippet (some "  hello world  ") (some "<b>x</b>") =
      some "hello world" := by
  have h := ((snippet_derivation.1 (some "  hello world  ")
    (some "<b>x</b>")).1) (by decide)
  have e : takeStr (trimStr ((some "  hello world  ").getD "")) 500 =
      "hello world" := by decide
  rw [e] at h
  exact h

/-- C4: a delivery response with status outside 2xx fails with an error
carrying the response status and the first 500 characters of the body;
the error is returned to the caller (no local retry). -/
theorem delivery_non2xx_failure :
    ∀ resp : HttpResponse, resp.status < 200 ∨ 300 ≤ resp.status →
      deliverRecord resp =
        Except.error ⟨resp.status, takeStr resp.body 500⟩ := by
  intro resp h
  unfold deliverRecord
  rw [if_neg (by omega)]

/-- C4 witness at a mocked 500 response. -/
theorem delivery_non2xx_failure_witness :
    deliverRecord ⟨500, "internal server error"⟩ =
      Except.error ⟨500, "internal server error"⟩ := by
  have h := delivery_non2xx_failure ⟨500, "internal server error"⟩
    (Or.inr (by decide))
  have e : takeStr "internal server error" 500 = "internal server error" := by
    decide
  rw [e] at h
  exact h

/-- C5: a trigger event with no delivery record makes the handler log a
warning and return successfully, issuing no fetch and no delivery. -/
theorem missing_record_noop :
    ∀ (bucket pfx : String) (s3 : String → String → Except Err S3Response)
      (event : SESEvent), eventRecord event = none →
      handler bucket pfx s3 event =
        { logs := [LogLine.warn
            "process-email: No SES record found in event payload"]
          fetches := []
          result := Except.ok () } := by
  intro bucket pfx s3 event h
  unfold handler
  rw [h]

/-- C5 witness at an empty event. -/
theorem missing_record_noop_witness :
    handler "bucket" "raw/" (fun _ _ => Except.error "unreachable") ⟨[]⟩ =
      { logs := [LogLine.warn
          "process-email: No SES record found in event payload"]
        fetches := []
        result := Except.ok () } :=
  missing_record_noop "bucket" "raw/" (fun _ _ => Except.error "unreachable")
    ⟨[]⟩ rfl

/-- C6: every processed record is fetched at the key equal to the resolved
key prefix (default raw/ when the setting is absent) concatenated with the
record message id. -/
theorem object_key_prefixed :
    (∀ (bucket : String) (p : Option String)
      (s3 : String → String → Except Err S3Response) (event : SESEvent)
      (msgRec : SESMessage), eventRecord event = some msgRec →
      (handler bucket (keyPrefixOf p) s3 event).fetches =
        [(bucket, keyPrefixOf p ++ msgRec.mail.messageId)]) ∧
    keyPrefixOf none = "raw/" := by
  refine ⟨?_, rfl⟩
  intro bucket p s3 event msgRec h
  unfold handler
  rw [h]
  dsimp only
  cases hs : s3 bucket (keyPrefixOf p ++ msgRec.mail.messageId) with
  | error e => rfl
  | ok r =>
    dsimp only
    cases hr : responseSize r with
    | error e => rfl
    | ok n => rfl

/-- C6 witness at a concrete record with the default key prefix. -/
theorem object_key_prefixed_witness :
    (handler "b" (keyPrefixOf none) (fun _ _ => Except.error "x")
      ⟨[⟨some ⟨⟨"mid", "s@x", []⟩⟩⟩]⟩).fetches = [("b", "raw/mid")] := by
  have h := object_key_prefixed.1 "b" none (fun _ _ => Except.error "x")
    ⟨[⟨some ⟨⟨"mid", "s@x", []⟩⟩⟩]⟩ ⟨⟨"mid", "s@x", []⟩⟩ rfl
  have e : keyPrefixOf none ++ "mid" = "raw/mid" := by decide
  rw [e] at h
  exact h

/-- C7: when the S3 fetch fails, the handler logs an error with the
message id, bucket and object key, and re-raises the very same error. -/
theorem fetch_error_logged_and_rethrown :
    ∀ (bucket pfx : String) (s3 : String → String → Except Err S3Response)
      (event : SESEvent) (msgRec : SESMessage) (e : Err),
      eventRecord event = some msgRec →
      s3 bucket (pfx ++ msgRec.mail.messageId) = Except.error e →
      handler bucket pfx s3 event =
        { logs := [LogLine.errorLog msgRec.mail.messageId bucket
            (pfx ++ msgRec.mail.messageId) e]
          fetches := [(bucket, pfx ++ msgRec.mail.messageId)]
          result := Except.error e } := by
  intro bucket pfx s3 event msgRec e hev hs3
  unfold handler
  rw [hev]
  dsimp only
  rw [hs3]

/-- C7 witness at a concrete failing fetch. -/
theorem fetch_error_logged_and_rethrown_witness :
    handler "b" "raw/" (fun _ _ => Except.error "NoSuchKey")
      ⟨[⟨some ⟨⟨"mid", "s@x", []⟩⟩⟩]⟩ =
      { logs := [LogLine.errorLog "mid" "b" "raw/mid" "NoSuchKey"]
        fetches := [("b", "raw/mid")]
        result := Except.error "NoSuchKey" } := by
  have h := fetch_error_logged_and_rethrown "b" "raw/"
    (fun _ _ => Except.error "NoSuchKey") ⟨[⟨some ⟨⟨"mid", "s@x", []⟩⟩⟩]⟩
    ⟨⟨"mid", "s@x", []⟩⟩ "NoSuchKey" rfl rfl
  have e : ("raw/" : String) ++ "mid" = "raw/mid" := by decide
  rw [e] at h
  exact h

/-- C8: each required setting — object-store bucket name, ingestion
endpoint URL, ingestion auth token — is fatal at startup when absent; the
source enforces this for the bucket, the spec model for all three. -/
theorem required_config_fatal :
    (∀ c : SpecConfig,
      c.bucketName = none ∨ c.ingestEndpointUrl = none ∨
        c.ingestAuthToken = none →
      exceptIsError (specStartupCheck c) = true) ∧
    checkEmailBucket none =
      Except.error "EMAIL_BUCKET environment variable must be set" := by
  refine ⟨?_, rfl⟩
  intro c h
  obtain ⟨b, u, t⟩ := c
  dsimp only at h
  rcases h with rfl | rfl | rfl
  · rfl
  · cases b <;> rfl
  · cases b <;> cases u <;> rfl

/-- C8 witness at a configuration missing the endpoint URL. -/
theorem required_config_fatal_witness :
    exceptIsError (specStartupCheck ⟨some "bucket", none, some "token"⟩) =
      true :=
  required_config_fatal.1 ⟨some "bucket", none, some "token"⟩
    (Or.inr (Or.inl rfl))

/-- C9: the logged byte size is the response ContentLength when present;
only when it is absent is the body consumed, counting 0 for an absent
body, the array length for a transformToByteArray body, and the summed
chunk lengths for a readable stream. -/
theorem logged_size_content_length :
    (∀ (bucket pfx : String) (s3 : String → String → Except Err S3Response)
      (event : SESEvent) (msgRec : SESMessage) (r : S3Response) (n : Nat),
      eventRecord event = some msgRec →
      s3 bucket (pfx ++ msgRec.mail.messageId) = Except.ok r →
      r.contentLength = some n →
      (handler bucket pfx s3 event).logs =
        [LogLine.info msgRec.mail.messageId (pfx ++ msgRec.mail.messageId)
          n msgRec.mail.destination msgRec.mail.source]) ∧
    (∀ r : S3Response, r.contentLength = none →
      responseSize r = consumeBody r.body) ∧
    consumeBody S3Body.undef = Except.ok 0 ∧
    (∀ bs : List Nat,
      consumeBody (S3Body.byteArrayCapable (Except.ok bs)) =
        Except.ok bs.length) ∧
    (∀ chunks : List (List Nat),
      consumeBody (S3Body.readable (chunks.map Except.ok)) =
        Except.ok (chunks.map List.length).sum) := by
  refine ⟨?_, ?_, rfl, fun bs => rfl, fun chunks => sumChunks_map_ok chunks⟩
  · intro bucket pfx s3 event msgRec r n hev hs3 hcl
    unfold handler
    rw [hev]
    dsimp only
    rw [hs3]
    dsimp only
    have hsize : responseSize r = Except.ok n := by
      unfold responseSize
      rw [hcl]
    rw [hsize]
  · intro r h
    unfold responseSize
    rw [h]

/-- C9 witness at a response carrying ContentLength 42. -/
theorem logged_size_content_length_witness :
    (handler "b" "raw/" (fun _ _ => Except.ok ⟨some 42, S3Body.undef⟩)
      ⟨[⟨some ⟨⟨"mid", "s@x", ["d@x"]⟩⟩⟩]⟩).logs =
      [LogLine.info "mid" "raw/mid" 42 ["d@x"] "s@x"] := by
  have h := logged_size_content_length.1 "b" "raw/"
    (fun _ _ => Except.ok ⟨some 42, S3Body.undef⟩)
    ⟨[⟨some ⟨⟨"mid", "s@x", ["d@x"]⟩⟩⟩]⟩ ⟨⟨"mid", "s@x", ["d@x"]⟩⟩
    ⟨some 42, S3Body.undef⟩ 42 rfl rfl rfl
  have e : ("raw/" : String) ++ "mid" = "raw/mid" := by decide
  rw [e] at h
  exact h

/-- C10: with a record present, the handler rejects exactly when the S3
fetch (or the subsequent body consumption) fails, and resolves
successfully for every fetched response whose size computes, performing
no parsing, resolution, normalization or delivery on the bytes. -/
theorem handler_errors_iff_fetch_fails :
    ∀ (bucket pfx : String) (s3 : String → String → Except Err S3Response)
      (event : SESEvent) (msgRec : SESMessage),
      eventRecord event = some msgRec →
      (∀ e : Err,
        (handler bucket pfx s3 event).result = Except.error e ↔
          (s3 bucket (pfx ++ msgRec.mail.messageId) = Except.error e ∨
            ∃ r : S3Response,
              s3 bucket (pfx ++ msgRec.mail.messageId) = Except.ok r ∧
              responseSize r = Except.error e)) ∧
      (∀ (r : S3Response) (n : Nat),
        s3 bucket (pfx ++ msgRec.mail.messageId) = Except.ok r →
        responseSize r = Except.ok n →
        (handler bucket pfx s3 event).result = Except.ok ()) := by
  intro bucket pfx s3 event msgRec hev
  constructor
  · intro e
    unfold handler
    rw [hev]
    dsimp only
    cases hs : s3 bucket (pfx ++ msgRec.mail.messageId) with
    | error e2 => simp
    | ok r =>
      dsimp only
      cases hr : responseSize r with
      | error e3 => simp [hr]
      | ok n => simp [hr]
  · intro r n hs3 hr
    unfold handler
    rw [hev]
    dsimp only
    rw [hs3]
    dsimp only
    rw [hr]

/-- C10 witness: a failing fetch makes the invocation reject with that
same error. -/
theorem handler_errors_iff_fetch_fails_witness :
    (handler "b" "raw/" (fun _ _ => Except.error "boom")
      ⟨[⟨some ⟨⟨"mid", "s@x", ["d@x"]⟩⟩⟩]⟩).result =
      Except.error "boom" := by
  have h := (handler_errors_iff_fetch_fails "b" "raw/"
    (fun _ _ => Except.error "boom") ⟨[⟨some ⟨⟨"mid", "s@x", ["d@x"]⟩⟩⟩]⟩
    ⟨⟨"mid", "s@x", ["d@x"]⟩⟩ rfl).1 "boom"
  exact h.mpr (Or.inl rfl)
